import Mathlib

/-!
Verification of the message-dispatch bridge implemented in
`src/server/apiController.ts` (class `ApiController`).

The embedding models JavaScript runtime values (`JsVal`), the relevant
pieces of JavaScript semantics used by the source (property access on
possibly-null values, truthiness, `parseInt`, `decodeURIComponent`,
object spread), the external collaborators (git service, avatar
providers, UI webview, application shell, command manager) as a pure
oracle `Env`, and every method of the `ApiController` class as a pure
function from controller state and payload to a new state, a trace of
observable effects and an `Except` outcome (a rejected promise is an
`Except.error`).
-/

set_option autoImplicit false

namespace ApiCtrl

/-- A JavaScript runtime value, as far as the source needs:
`undefined`, `null`, booleans, `NaN`, integral numbers, strings,
plain objects (insertion-ordered field lists) and arrays. -/
inductive JsVal where
  | undef : JsVal
  | nullv : JsVal
  | bool : Bool → JsVal
  | nan : JsVal
  | num : Int → JsVal
  | str : String → JsVal
  | obj : List (String × JsVal) → JsVal
  | arr : List JsVal → JsVal
  deriving Repr

/-- A JavaScript number restricted to what the source can produce from
`parseInt`: either `NaN` or an integer. -/
inductive JsNum where
  | nan : JsNum
  | int : Int → JsNum
  deriving Repr, DecidableEq

/-- View a `JsNum` as a `JsVal`. -/
def JsNum.toVal : JsNum → JsVal
  | .nan => .nan
  | .int i => .num i

/-- Field lookup in an insertion-ordered field list; a missing field is
`undefined`, as in JavaScript. -/
def JsVal.getFieldL (fs : List (String × JsVal)) (k : String) : JsVal :=
  match fs.find? (fun p => p.1 == k) with
  | some p => p.2
  | none => (.undef)

/-- Property read on a value that is known not to be `null`/`undefined`:
objects yield the stored field (or `undefined`), all other values have
none of the fields the source reads, hence `undefined`. -/
def JsVal.getFieldNN : JsVal → String → JsVal
  | .obj fs, k => JsVal.getFieldL fs k
  | _, _ => (.undef)

/-- The `TypeError` thrown by reading property `k` of `undefined` or of
`null` (JavaScript wording, kept as a string value). -/
def readErr (k : String) (onNull : Bool) : JsVal :=
  .str ("TypeError: Cannot read properties of "
    ++ (if onNull then "null" else "undefined") ++ " (reading " ++ k ++ ")")

/-- Property read with full JavaScript semantics: reading a property of
`undefined` or `null` throws a `TypeError`; every other receiver
yields a value (possibly `undefined`). -/
def JsVal.getField : JsVal → String → Except JsVal JsVal
  | .undef, k => .error (readErr k false)
  | .nullv, k => .error (readErr k true)
  | v, k => .ok (JsVal.getFieldNN v k)

/-- JavaScript truthiness. -/
def JsVal.truthy : JsVal → Bool
  | .undef => false
  | .nullv => false
  | .bool b => b
  | .nan => false
  | .num i => decide (i ≠ 0)
  | .str s => decide (s ≠ "")
  | .obj _ => true
  | .arr _ => true

/-- ToString coercion of the elements of an array value (the
`Array.prototype.toString` join): elements are joined by commas, with
`undefined`/`null` elements contributing the empty string and nested
arrays joined recursively. -/
def jsArrToString (xs : List JsVal) : String :=
  String.intercalate "," (xs.attach.map (fun a =>
    match a with
    | ⟨.undef, _⟩ => ""
    | ⟨.nullv, _⟩ => ""
    | ⟨.bool b, _⟩ => cond b "true" "false"
    | ⟨.nan, _⟩ => "NaN"
    | ⟨.num i, _⟩ => toString i
    | ⟨.str s, _⟩ => s
    | ⟨.obj _, _⟩ => "[object Object]"
    | ⟨.arr ys, hv⟩ => jsArrToString ys))
termination_by sizeOf xs
decreasing_by
  have h1 := List.sizeOf_lt_of_mem hv
  simp only [JsVal.arr.sizeOf_spec] at h1
  omega

/-- ToString coercion of a `JsVal` (the `String(v)` operation), used by
property-key coercion, `parseInt` and `decodeURIComponent`. -/
def jsToString : JsVal → String
  | .undef => "undefined"
  | .nullv => "null"
  | .bool b => cond b "true" "false"
  | .nan => "NaN"
  | .num i => toString i
  | .str s => s
  | .obj _ => "[object Object]"
  | .arr xs => jsArrToString xs

/-- Update field `k` of an insertion-ordered field list, keeping the
position of an existing field (JavaScript object-literal semantics). -/
def objSetL : List (String × JsVal) → String → JsVal → List (String × JsVal)
  | [], k, v => [(k, v)]
  | (k', v') :: rest, k, v =>
      if k' == k then (k, v) :: rest else (k', v') :: objSetL rest k v

/-- Update field `k` of an object value; other values are returned
unchanged (the source only ever updates values it has just read fields
from, so the non-object case is unreachable there). -/
def jsObjSet : JsVal → String → JsVal → JsVal
  | .obj fs, k, v => .obj (objSetL fs k v)
  | w, _, _ => w

/-- The enumerable own fields contributed by spreading a value into an
object literal; primitives contribute nothing. -/
def spreadFields : JsVal → List (String × JsVal)
  | .obj fs => fs
  | _ => []

/-- Value of a hexadecimal digit character, if any. -/
def hexVal? (c : Char) : Option Nat :=
  if c.isDigit then some (c.toNat - 48)
  else if 97 ≤ c.toNat ∧ c.toNat ≤ 102 then some (c.toNat - 87)
  else if 65 ≤ c.toNat ∧ c.toNat ≤ 70 then some (c.toNat - 55)
  else none

/-- Accumulate the value of a maximal run of leading decimal digits. -/
def decValAux : List Char → Nat → Nat
  | [], acc => acc
  | c :: cs, acc =>
      if c.isDigit then decValAux cs (acc * 10 + (c.toNat - 48)) else acc

/-- Accumulate the value of a maximal run of leading hexadecimal digits. -/
def hexValAux : List Char → Nat → Nat
  | [], acc => acc
  | c :: cs, acc =>
      match hexVal? c with
      | some d => hexValAux cs (acc * 16 + d)
      | none => acc

/-- The JavaScript `parseInt` on a string: skip leading whitespace, read
an optional sign, then (when called with no radix argument, as on the
pagination bounds) an optional `0x`/`0X` prefix switching to base 16,
then a maximal run of digits; with no digit at all the result is `NaN`.
The source calls it with no radix (`allowHex = true`) and with an
explicit radix 10 (`allowHex = false`). -/
def parseIntStr (s : String) (allowHex : Bool) : JsNum :=
  let cs := s.toList.dropWhile Char.isWhitespace
  let (neg, cs) : Bool × List Char :=
    match cs with
    | '-' :: rest => (true, rest)
    | '+' :: rest => (false, rest)
    | rest => (false, rest)
  match cs with
  | '0' :: x :: rest =>
      if allowHex ∧ (x = 'x' ∨ x = 'X') then
        match rest with
        | c :: _ =>
            if (hexVal? c).isSome then
              JsNum.int (if neg then -(hexValAux rest 0 : Int) else (hexValAux rest 0 : Int))
            else JsNum.nan
        | [] => JsNum.nan
      else
        JsNum.int (if neg then -(decValAux ('0' :: x :: rest) 0 : Int)
                   else (decValAux ('0' :: x :: rest) 0 : Int))
  | c :: rest =>
      if c.isDigit then
        JsNum.int (if neg then -(decValAux (c :: rest) 0 : Int) else (decValAux (c :: rest) 0 : Int))
      else JsNum.nan
  | [] => JsNum.nan

/-- The JavaScript `parseInt` applied to an arbitrary value: the value
is first coerced to a string. -/
def parseIntJs (v : JsVal) (allowHex : Bool) : JsNum :=
  parseIntStr (jsToString v) allowHex

/-- Percent-decode a character list as `decodeURIComponent` does:
literal characters pass through; a `%XX` escape yields a byte, and a
leading byte of a multi-byte UTF-8 sequence must be followed by the
matching number of `%XX` continuation bytes, which are combined into
one code point. `none` is the `URIError` outcome. -/
def decodeChars : List Char → Option (List Char)
  | [] => some []
  | '%' :: h :: l :: rest =>
      (match hexVal? h, hexVal? l with
       | some a, some b =>
          let byte := a * 16 + b
          if byte < 128 then
            (decodeChars rest).map (fun cs => Char.ofNat byte :: cs)
          else if byte < 194 then
            none
          else if byte < 224 then
            match rest with
            | '%' :: h1 :: l1 :: rest2 =>
                (match hexVal? h1, hexVal? l1 with
                 | some a1, some b1 =>
                    let c1 := a1 * 16 + b1
                    if 128 ≤ c1 ∧ c1 < 192 then
                      (decodeChars rest2).map
                        (fun cs => Char.ofNat ((byte - 192) * 64 + (c1 - 128)) :: cs)
                    else none
                 | _, _ => none)
            | _ => none
          else if byte < 240 then
            match rest with
            | '%' :: h1 :: l1 :: '%' :: h2 :: l2 :: rest2 =>
                (match hexVal? h1, hexVal? l1, hexVal? h2, hexVal? l2 with
                 | some a1, some b1, some a2, some b2 =>
                    let c1 := a1 * 16 + b1
                    let c2 := a2 * 16 + b2
                    if 128 ≤ c1 ∧ c1 < 192 ∧ 128 ≤ c2 ∧ c2 < 192 then
                      let cp := (byte - 224) * 4096 + (c1 - 128) * 64 + (c2 - 128)
                      if 2048 ≤ cp ∧ ¬ (55296 ≤ cp ∧ cp < 57344) then
                        (decodeChars rest2).map (fun cs => Char.ofNat cp :: cs)
                      else none
                    else none
                 | _, _, _, _ => none)
            | _ => none
          else if byte < 245 then
            match rest with
            | '%' :: h1 :: l1 :: '%' :: h2 :: l2 :: '%' :: h3 :: l3 :: rest2 =>
                (match hexVal? h1, hexVal? l1, hexVal? h2, hexVal? l2, hexVal? h3, hexVal? l3 with
                 | some a1, some b1, some a2, some b2, some a3, some b3 =>
                    let c1 := a1 * 16 + b1
                    let c2 := a2 * 16 + b2
                    let c3 := a3 * 16 + b3
                    if 128 ≤ c1 ∧ c1 < 192 ∧ 128 ≤ c2 ∧ c2 < 192 ∧ 128 ≤ c3 ∧ c3 < 192 then
                      let cp := (byte - 240) * 262144 + (c1 - 128) * 4096 + (c2 - 128) * 64 + (c3 - 128)
                      if 65536 ≤ cp ∧ cp < 1114112 then
                        (decodeChars rest2).map (fun cs => Char.ofNat cp :: cs)
                      else none
                    else none
                 | _, _, _, _, _, _ => none)
            | _ => none
          else none
       | _, _ => none)
  | '%' :: _ => none
  | c :: rest => (decodeChars rest).map (fun cs => c :: cs)

/-- The `URIError` thrown by `decodeURIComponent` on a malformed input. -/
def uriErr : JsVal := .str "URIError: URI malformed"

/-- The JavaScript `decodeURIComponent` applied to an arbitrary value:
the value is coerced to a string and percent-decoded; a malformed
escape sequence throws a `URIError`. -/
def decodeURIComponentJs (v : JsVal) : Except JsVal String :=
  match decodeChars (jsToString v).toList with
  | some cs => .ok (String.mk cs)
  | none => .error uriErr

/-- Origin type of the repository remote, from the adapter module the
source imports (`GitOriginType`); `any` is the wildcard member the
generic avatar provider declares support for. -/
inductive GitOriginType where
  | any
  | github
  | bitbucket
  | vsts
  deriving Repr, DecidableEq

/-- Ref kinds, from the `RefType` enum the source imports: `Head`,
`RemoteHead` and `Tag`, in declaration order. -/
inductive RefType where
  | Head
  | RemoteHead
  | Tag
  deriving Repr, DecidableEq

/-- Numeric enum value of a `RefType` member, in declaration order. -/
def refTypeVal : RefType → JsVal
  | .Head => .num 0
  | .RemoteHead => .num 1
  | .Tag => .num 2

/-- The ref-descriptor object literal pushed by `doAction`,
field order as in the source. -/
def refVal (t : RefType) (name : String) : JsVal :=
  .obj [("type", refTypeVal t), ("name", .str name)]

/-- An avatar provider: whether it supports a given origin type, and
the outcome of its `getAvatars(gitService)` call. -/
structure AvatarProviderM where
  supported : GitOriginType → Bool
  avatarsRes : Except JsVal JsVal

/-- The argument bundle `getLogEntries` passes to
`gitService.getLogEntries`, in parameter order. -/
structure LogQueryArgs where
  startIndex : JsNum
  stopIndex : JsNum
  branch : JsVal
  searchText : JsVal
  file : Option String
  line : Option JsNum
  author : Option String
  deriving Repr

/-- The `CommitDetails(gitRoot, branch, logEntry)` value handed to
collaborators. -/
structure CommitDetailsV where
  gitRoot : JsVal
  branch : JsVal
  logEntry : JsVal
  deriving Repr

/-- The `FileCommitDetails(gitRoot, branch, logEntry, committedFile)`
value handed to the command manager by `selectCommittedFile`. -/
structure FileCommitDetailsV where
  gitRoot : JsVal
  branch : JsVal
  logEntry : JsVal
  committedFile : JsVal
  deriving Repr

/-- One call into the git service, with the arguments the source passes. -/
inductive GitCall where
  | getLogEntries (q : LogQueryArgs)
  | getBranches
  | getAuthors
  | getGitRoot
  | getCurrentBranch
  | getCommit (hash : JsVal)
  | getCommitRefresh (hash : String)
  | getOriginType
  | createTag (name : String) (hash : JsVal)
  | createBranch (name : String) (hash : JsVal)
  | removeTag (name : JsVal)
  | removeBranch (name : JsVal)
  | removeRemoteBranch (name : JsVal)
  | reset (hash : JsVal) (hard : Bool)
  deriving Repr

/-- Body of an outbound correlation envelope posted by the dispatcher:
`{ requestId, payload }` on success or `{ requestId, error }` on
failure. -/
inductive OutBody where
  | payload (v : JsVal)
  | err (e : JsVal)
  deriving Repr

/-- An observable effect of running a controller method: a git-service
call, a message posted to the webview (an envelope from the dispatcher,
or the differently-shaped direct push from `getAvatars`), an error
shown through the application shell, a command-manager execution, or
the commit viewer being invoked. -/
inductive Effect where
  | git (c : GitCall)
  | postEnvelope (requestId : JsVal) (body : OutBody)
  | postDirect (cmd : String) (error : String)
  | showError (e : JsVal)
  | execCommand (cmd : String) (details : CommitDetailsV)
  | execCommandFile (cmd : String) (details : FileCommitDetailsV)
  | viewCommitTree (details : CommitDetailsV)
  deriving Repr

/-- The external world as a pure oracle: the response of every
collaborator call the controller can make, plus the values of the
collaborator-owned objects the controller reads. An `Except.error`
response is a rejected promise. -/
structure Env where
  logEntriesRes : LogQueryArgs → Except JsVal JsVal
  branchesRes : Except JsVal JsVal
  authorsRes : Except JsVal JsVal
  commitRes : JsVal → Except JsVal JsVal
  commitRefreshRes : String → Except JsVal JsVal
  originTypeRes : Except JsVal (Option GitOriginType)
  providers : List AvatarProviderM
  gitRoot : JsVal
  currentBranch : JsVal
  createTagRes : String → JsVal → Except JsVal JsVal
  createBranchRes : String → JsVal → Except JsVal JsVal
  removeTagRes : JsVal → Except JsVal JsVal
  removeBranchRes : JsVal → Except JsVal JsVal
  removeRemoteBranchRes : JsVal → Except JsVal JsVal
  resetRes : JsVal → Bool → Except JsVal JsVal
  execCommandRes : Except JsVal JsVal
  panelVal : JsVal

/-- Mutable state of an `ApiController` instance: the subscriber slot
`stateRequestId`, and how many times each subscription held in the
`disposable` array has had `dispose` invoked on it. -/
structure CState where
  stateRequestId : JsVal
  disposeCounts : List Nat
  deriving Repr

/-- State after the constructor ran: `stateRequestId` is the empty
string (line 16), and the `disposable` array holds the webview message
subscription and the git state-change subscription, neither disposed. -/
def initState : CState :=
  { stateRequestId := .str "", disposeCounts := [0, 0] }

/-- The `dispose` method (lines 213-215): it invokes `dispose` on every
entry of the `disposable` array, with no guard against repeated calls. -/
def disposeCtrl (st : CState) : CState :=
  { st with disposeCounts := st.disposeCounts.map (fun n => n + 1) }

/-- Result of running one controller method: the new controller state,
the trace of effects, and the settled outcome of the returned promise. -/
abbrev HRes := CState × List Effect × Except JsVal JsVal

/-- The arguments `getLogEntries` computes from its payload
(lines 49-60): empty-string search text becomes `undefined`; truthy
pagination bounds are `parseInt`-ed (no radix), falsy ones default to
0 and 30; `authorFilter` passes only strings through; a truthy `line`
is `parseInt`-ed with radix 10; a truthy `file` becomes a `Uri`
(modelled by its path string). The payload is known non-null here. -/
def logEntriesArgs (a : JsVal) : LogQueryArgs :=
  let searchText0 := a.getFieldNN "searchText"
  { startIndex :=
      if (a.getFieldNN "startIndex").truthy then parseIntJs (a.getFieldNN "startIndex") true
      else .int 0
    stopIndex :=
      if (a.getFieldNN "stopIndex").truthy then parseIntJs (a.getFieldNN "stopIndex") true
      else .int 30
    branch := a.getFieldNN "branchName"
    searchText :=
      match searchText0 with
      | .str s => if s.length = 0 then .undef else .str s
      | v => v
    file :=
      if (a.getFieldNN "file").truthy then some (jsToString (a.getFieldNN "file"))
      else none
    line :=
      if (a.getFieldNN "line").truthy then some (parseIntJs (a.getFieldNN "line") false)
      else none
    author :=
      match a.getFieldNN "authorFilter" with
      | .str s => some s
      | _ => none }

/-- The return value of `getLogEntries` (lines 72-76): the query result
spread into a fresh object literal together with the echoed pagination
bounds. -/
def mergeBounds (entries : JsVal) (si sp : JsNum) : JsVal :=
  .obj (objSetL (objSetL (spreadFields entries) "startIndex" si.toVal) "stopIndex" sp.toVal)

/-- Method `getLogEntries` (lines 48-77). -/
def hGetLogEntries (env : Env) (st : CState) (args : JsVal) : HRes :=
  match args with
  | .undef => (st, [], .error (readErr "searchText" false))
  | .nullv => (st, [], .error (readErr "searchText" true))
  | a =>
      let q := logEntriesArgs a
      match env.logEntriesRes q with
      | .ok entries =>
          (st, [.git (.getLogEntries q)], .ok (mergeBounds entries q.startIndex q.stopIndex))
      | .error e => (st, [.git (.getLogEntries q)], .error e)

/-- Method `getBranches` (lines 78-80): pure delegation. -/
def hGetBranches (env : Env) (st : CState) (_args : JsVal) : HRes :=
  (st, [.git .getBranches], env.branchesRes)

/-- Method `getAuthors` (lines 81-83): pure delegation. -/
def hGetAuthors (env : Env) (st : CState) (_args : JsVal) : HRes :=
  (st, [.git .getAuthors], env.authorsRes)

/-- Method `getCommit` (lines 84-94): reads the hash, the git root and
the current branch, resolves the commit, hands it to the commit viewer
(fire-and-forget) and returns it. -/
def hGetCommit (env : Env) (st : CState) (args : JsVal) : HRes :=
  match args with
  | .undef => (st, [], .error (readErr "hash" false))
  | .nullv => (st, [], .error (readErr "hash" true))
  | a =>
      let hash := a.getFieldNN "hash"
      let effs := [Effect.git .getGitRoot, Effect.git .getCurrentBranch, Effect.git (.getCommit hash)]
      match env.commitRes hash with
      | .ok commit =>
          (st, effs ++ [.viewCommitTree ⟨env.gitRoot, env.currentBranch, commit⟩], .ok commit)
      | .error e => (st, effs, .error e)

/-- Method `getAvatars` (lines 96-120): resolves the origin type; with
no origin type it pushes a direct `getAvatarsResult` error message to
the webview and returns `undefined`; otherwise the first provider
supporting the origin type wins, with the first provider supporting
`GitOriginType.any` as fallback; a missing fallback surfaces as the
`TypeError` of calling a method on `undefined` (the non-null assertion
on line 109 has no runtime effect). -/
def hGetAvatars (env : Env) (st : CState) (_args : JsVal) : HRes :=
  match env.originTypeRes with
  | .error e => (st, [.git .getOriginType], .error e)
  | .ok none =>
      (st, [.git .getOriginType, .postDirect "getAvatarsResult" "No origin type found"], .ok .undef)
  | .ok (some t) =>
      match env.providers.find? (fun item => item.supported t) with
      | some provider =>
          match provider.avatarsRes with
          | .ok avatars => (st, [.git .getOriginType], .ok avatars)
          | .error e => (st, [.git .getOriginType], .error e)
      | none =>
          match env.providers.find? (fun item => item.supported .any) with
          | some generic =>
              match generic.avatarsRes with
              | .ok avatars => (st, [.git .getOriginType], .ok avatars)
              | .error e => (st, [.git .getOriginType], .error e)
          | none => (st, [.git .getOriginType], .error (readErr "getAvatars" false))

/-- Method `doActionRef` (lines 121-138): decodes the hash, dispatches
on the action name to a ref-removal call (unknown names are a no-op),
then always re-fetches the commit with the refresh flag. -/
def hDoActionRef (env : Env) (st : CState) (args : JsVal) : HRes :=
  match args with
  | .undef => (st, [], .error (readErr "name" false))
  | .nullv => (st, [], .error (readErr "name" true))
  | a =>
      let actionName := a.getFieldNN "name"
      match decodeURIComponentJs (a.getFieldNN "hash") with
      | .error e => (st, [], .error e)
      | .ok hash =>
          let refEntry := a.getFieldNN "ref"
          let finish : List Effect → HRes := fun effs =>
            match env.commitRefreshRes hash with
            | .ok commit => (st, effs ++ [.git (.getCommitRefresh hash)], .ok commit)
            | .error e => (st, effs ++ [.git (.getCommitRefresh hash)], .error e)
          match actionName with
          | .str "removeTag" =>
              (match refEntry.getField "name" with
               | .error e => (st, [], .error e)
               | .ok nm =>
                  match env.removeTagRes nm with
                  | .ok _ => finish [.git (.removeTag nm)]
                  | .error e => (st, [.git (.removeTag nm)], .error e))
          | .str "removeBranch" =>
              (match refEntry.getField "name" with
               | .error e => (st, [], .error e)
               | .ok nm =>
                  match env.removeBranchRes nm with
                  | .ok _ => finish [.git (.removeBranch nm)]
                  | .error e => (st, [.git (.removeBranch nm)], .error e))
          | .str "removeRemote" =>
              (match refEntry.getField "name" with
               | .error e => (st, [], .error e)
               | .ok nm =>
                  match env.removeRemoteBranchRes nm with
                  | .ok _ => finish [.git (.removeRemoteBranch nm)]
                  | .error e => (st, [.git (.removeRemoteBranch nm)], .error e))
          | _ => finish []

/-- Read `logEntry.hash.full` (with the `TypeError` JavaScript raises
when an intermediate value is `null`/`undefined`). -/
def hashFull (logEntry : JsVal) : Except JsVal JsVal :=
  match logEntry.getField "hash" with
  | .error e => .error e
  | .ok h => h.getField "full"

/-- The `TypeError` raised by `logEntry.refs.push(...)` when `refs` is
not an array. -/
def pushErr (refs : JsVal) : JsVal :=
  match refs with
  | .undef => readErr "push" false
  | .nullv => readErr "push" true
  | _ => .str "TypeError: logEntry.refs.push is not a function"

/-- Method `doAction` (lines 139-170): reads the git root and current
branch, decodes the value, then dispatches on the action name; tag and
branch creation append a synthetic ref descriptor to the passed-in log
entry and the (possibly mutated) log entry is returned; unknown names
forward to the command manager. -/
def hDoAction (env : Env) (st : CState) (args : JsVal) : HRes :=
  let pre := [Effect.git .getGitRoot, Effect.git .getCurrentBranch]
  match args with
  | .undef => (st, pre, .error (readErr "name" false))
  | .nullv => (st, pre, .error (readErr "name" true))
  | a =>
      let actionName := a.getFieldNN "name"
      match decodeURIComponentJs (a.getFieldNN "value") with
      | .error e => (st, pre, .error e)
      | .ok value =>
          let logEntry := a.getFieldNN "logEntry"
          match actionName with
          | .str "newtag" =>
              (match hashFull logEntry with
               | .error e => (st, pre, .error e)
               | .ok full =>
                  match env.createTagRes value full with
                  | .error e => (st, pre ++ [.git (.createTag value full)], .error e)
                  | .ok _ =>
                      match logEntry.getFieldNN "refs" with
                      | .arr refs =>
                          (st, pre ++ [.git (.createTag value full)],
                           .ok (jsObjSet logEntry "refs" (.arr (refs ++ [refVal .Tag value]))))
                      | other => (st, pre ++ [.git (.createTag value full)], .error (pushErr other)))
          | .str "newbranch" =>
              (match hashFull logEntry with
               | .error e => (st, pre, .error e)
               | .ok full =>
                  match env.createBranchRes value full with
                  | .error e => (st, pre ++ [.git (.createBranch value full)], .error e)
                  | .ok _ =>
                      match logEntry.getFieldNN "refs" with
                      | .arr refs =>
                          (st, pre ++ [.git (.createBranch value full)],
                           .ok (jsObjSet logEntry "refs" (.arr (refs ++ [refVal .Head value]))))
                      | other => (st, pre ++ [.git (.createBranch value full)], .error (pushErr other)))
          | .str "reset_hard" =>
              (match hashFull logEntry with
               | .error e => (st, pre, .error e)
               | .ok full =>
                  match env.resetRes full true with
                  | .ok _ => (st, pre ++ [.git (.reset full true)], .ok logEntry)
                  | .error e => (st, pre ++ [.git (.reset full true)], .error e))
          | .str "reset_soft" =>
              (match hashFull logEntry with
               | .error e => (st, pre, .error e)
               | .ok full =>
                  match env.resetRes full false with
                  | .ok _ => (st, pre ++ [.git (.reset full false)], .ok logEntry)
                  | .error e => (st, pre ++ [.git (.reset full false)], .error e))
          | _ =>
              let eff := Effect.execCommand "git.commit.doSomething"
                ⟨env.gitRoot, env.currentBranch, logEntry⟩
              match env.execCommandRes with
              | .ok _ => (st, pre ++ [eff], .ok logEntry)
              | .error e => (st, pre ++ [eff], .error e)

/-- Method `doSomethingWithCommit` (lines 171-177): fires the command
manager without awaiting it; returns `undefined`. -/
def hDoSomethingWithCommit (env : Env) (st : CState) (args : JsVal) : HRes :=
  let pre := [Effect.git .getGitRoot, Effect.git .getCurrentBranch]
  match args with
  | .undef => (st, pre, .error (readErr "logEntry" false))
  | .nullv => (st, pre, .error (readErr "logEntry" true))
  | a =>
      (st, pre ++ [.execCommand "git.commit.doSomething"
        ⟨env.gitRoot, env.currentBranch, a.getFieldNN "logEntry"⟩], .ok .undef)

/-- Method `selectCommittedFile` (lines 178-187): fires the command
manager without awaiting it; returns `undefined`. -/
def hSelectCommittedFile (env : Env) (st : CState) (args : JsVal) : HRes :=
  let pre := [Effect.git .getGitRoot, Effect.git .getCurrentBranch]
  match args with
  | .undef => (st, pre, .error (readErr "logEntry" false))
  | .nullv => (st, pre, .error (readErr "logEntry" true))
  | a =>
      (st, pre ++ [.execCommandFile "git.commit.file.select"
        ⟨env.gitRoot, env.currentBranch, a.getFieldNN "logEntry", a.getFieldNN "committedFile"⟩],
       .ok .undef)

/-- Method `registerState` (lines 189-191): stores the payload request
id into the subscriber slot; returns `undefined`. -/
def hRegisterState (_env : Env) (st : CState) (args : JsVal) : HRes :=
  match args with
  | .undef => (st, [], .error (readErr "requestId" false))
  | .nullv => (st, [], .error (readErr "requestId" true))
  | a => ({ st with stateRequestId := a.getFieldNN "requestId" }, [], .ok .undef)

/-- Method `sendState` (lines 193-195): the identity handler. -/
def hSendState (_env : Env) (st : CState) (args : JsVal) : HRes :=
  (st, [], .ok args)

/-- The command handlers of the controller, i.e. the Command Table of
the specification: the eleven public asynchronous methods a webview
message is meant to name. -/
inductive CommandName where
  | getLogEntries
  | getBranches
  | getAuthors
  | getCommit
  | getAvatars
  | doActionRef
  | doAction
  | doSomethingWithCommit
  | selectCommittedFile
  | registerState
  | sendState
  deriving Repr, DecidableEq

/-- Run the handler bound to a command-table entry. -/
def runHandler : CommandName → Env → CState → JsVal → HRes
  | .getLogEntries => hGetLogEntries
  | .getBranches => hGetBranches
  | .getAuthors => hGetAuthors
  | .getCommit => hGetCommit
  | .getAvatars => hGetAvatars
  | .doActionRef => hDoActionRef
  | .doAction => hDoAction
  | .doSomethingWithCommit => hDoSomethingWithCommit
  | .selectCommittedFile => hSelectCommittedFile
  | .registerState => hRegisterState
  | .sendState => hSendState

/-- The Command Table: command name to handler. -/
def commandTable (key : String) : Option CommandName :=
  if key = "getLogEntries" then some .getLogEntries
  else if key = "getBranches" then some .getBranches
  else if key = "getAuthors" then some .getAuthors
  else if key = "getCommit" then some .getCommit
  else if key = "getAvatars" then some .getAvatars
  else if key = "doActionRef" then some .doActionRef
  else if key = "doAction" then some .doAction
  else if key = "doSomethingWithCommit" then some .doSomethingWithCommit
  else if key = "selectCommittedFile" then some .selectCommittedFile
  else if key = "registerState" then some .registerState
  else if key = "sendState" then some .sendState
  else none

/-- The remaining function-valued properties the dynamic
`this[message.cmd]` lookup (line 199) can hit on the prototype chain
(instance, `ApiController.prototype`, the vscode `Disposable`
prototype, `Object.prototype`): the public accessor `getWebviewPanel`,
the `dispose` method, the class constructor, the `postMessageParser`
arrow-function field itself, and the methods inherited from
`Object.prototype` (`hasOwnProperty`, `isPrototypeOf`,
`propertyIsEnumerable`, `toLocaleString`, `toString`, `valueOf`, and
the legacy accessor utilities). -/
inductive OtherProp where
  | getWebviewPanel
  | dispose
  | classCtor
  | selfDispatch
  | hasOwnProp
  | isProtoOf
  | propIsEnum
  | toLocaleStringM
  | toStringM
  | valueOfM
  | defineGetter
  | defineSetter
  | lookupGetter
  | lookupSetter
  deriving Repr, DecidableEq

/-- The function-valued non-handler properties declared by the class
itself (or assigned as an instance field, as `postMessageParser` is). -/
def ownFnProps (key : String) : Option OtherProp :=
  if key = "getWebviewPanel" then some .getWebviewPanel
  else if key = "dispose" then some .dispose
  else if key = "constructor" then some .classCtor
  else if key = "postMessageParser" then some .selfDispatch
  else none

/-- The function-valued properties inherited from `Object.prototype`
at the end of the prototype chain (the vscode `Disposable` prototype in
between adds only `dispose` and `constructor`, both shadowed by the
class). -/
def protoFnProps (key : String) : Option OtherProp :=
  if key = "hasOwnProperty" then some .hasOwnProp
  else if key = "isPrototypeOf" then some .isProtoOf
  else if key = "propertyIsEnumerable" then some .propIsEnum
  else if key = "toLocaleString" then some .toLocaleStringM
  else if key = "toString" then some .toStringM
  else if key = "valueOf" then some .valueOfM
  else if key = "__defineGetter__" then some .defineGetter
  else if key = "__defineSetter__" then some .defineSetter
  else if key = "__lookupGetter__" then some .lookupGetter
  else if key = "__lookupSetter__" then some .lookupSetter
  else none

/-- Lookup of the function-valued non-handler properties, own before
inherited, as the prototype chain orders them. -/
def otherProps (key : String) : Option OtherProp :=
  match ownFnProps key with
  | some p => some p
  | none => protoFnProps key

/-- The non-function properties of the controller: its instance fields,
and the inherited `__proto__` accessor (whose read yields the prototype
object). Invoking one of these as a command throws on the `.bind`
call. -/
def valueProps (key : String) : Bool :=
  key = "disposable" ∨ key = "commitViewer" ∨ key = "applicationShell"
    ∨ key = "stateRequestId" ∨ key = "webviewPanel" ∨ key = "gitService"
    ∨ key = "serviceContainer" ∨ key = "commandManager" ∨ key = "__proto__"

/-- The own enumerable properties of the controller instance: the eight
data fields plus the `postMessageParser` arrow-function field;
the methods live on the prototype, so `hasOwnProperty` and
`propertyIsEnumerable` answer false for them. -/
def ownInstanceProp (key : String) : Bool :=
  (key = "disposable" ∨ key = "commitViewer" ∨ key = "applicationShell"
    ∨ key = "stateRequestId" ∨ key = "webviewPanel" ∨ key = "gitService"
    ∨ key = "serviceContainer" ∨ key = "commandManager") ∨ key = "postMessageParser"

/-- Opaque stand-in for the controller instance itself, which the
inherited `valueOf` returns (and the dispatcher then posts; the
transport serialization of the instance is outside this model). -/
def controllerVal : JsVal := .obj [("ApiController", .bool true)]

/-- Opaque stand-ins for the native accessor functions of the inherited
`__proto__` property, which the legacy lookup utilities return when
asked for that key. -/
def protoGetterFnVal : JsVal := .obj [("nativeFunction", .str "get __proto__")]

/-- See `protoGetterFnVal`. -/
def protoSetterFnVal : JsVal := .obj [("nativeFunction", .str "set __proto__")]

/-- The `TypeError` of the legacy definition utilities when called with
their function argument missing (the dispatcher passes only the
payload). -/
def getterErr : JsVal := .str "TypeError: Getter must be a function"

/-- See `getterErr`. -/
def setterErr : JsVal := .str "TypeError: Setter must be a function"

/-- The `TypeError` of line 199 when `this[message.cmd]` is not a
callable handler: a non-function value has no usable `bind`, and a
missing property gives `undefined.bind`. -/
def bindError (key : String) : JsVal :=
  if valueProps key then .str "TypeError: this[message.cmd].bind is not a function"
  else readErr "bind" false

/-- The `TypeError` of invoking the class constructor without `new`. -/
def ctorErr : JsVal :=
  .str "TypeError: Class constructor ApiController cannot be invoked without new"

/-- Sizes shrink when reading a field of an object literal. -/
theorem sizeOf_getFieldL_lt (fs : List (String × JsVal)) (k : String) :
    sizeOf (JsVal.getFieldL fs k) < 1 + sizeOf fs := by
  unfold JsVal.getFieldL
  cases h : fs.find? (fun p => p.1 == k) with
  | none =>
      simp only [h, JsVal.undef.sizeOf_spec]
      cases fs with
      | nil => simp
      | cons a l => simp only [List.cons.sizeOf_spec]; omega
  | some p =>
      simp only [h]
      have hmem : p ∈ fs := List.mem_of_find?_eq_some h
      have h1 : sizeOf p < sizeOf fs := List.sizeOf_lt_of_mem hmem
      have h2 : sizeOf p.2 < sizeOf p := by
        cases p with
        | mk a b => simp only [Prod.mk.sizeOf_spec]; omega
      omega

/-- The dispatcher `postMessageParser` (lines 197-211): the inbound
message's `cmd` field is coerced to a property key, the property is
looked up along the prototype chain of the instance, bound and invoked
with the message payload; a successful result is posted back in a
`{ requestId, payload }` envelope, and any exception (including a
missing or non-callable property) is shown through the application
shell and posted back in a `{ requestId, error }` envelope. Command
names hitting non-handler function-valued properties, own or inherited
from `Object.prototype` (`otherProps`), are invoked like handlers:
for example `toString` succeeds and is posted back in a success
envelope. Reading `cmd` of a `null`/`undefined` message throws inside
the `try`, and the catch block then throws again on
`message.requestId`: that exception escapes as the third component.
A message naming `postMessageParser` re-enters the dispatcher with the
payload as the message. -/
def postMessageParser (env : Env) : CState → JsVal → CState × List Effect × Option JsVal
  | st, .undef =>
      (st, [.showError (readErr "cmd" false)], some (readErr "requestId" false))
  | st, .nullv =>
      (st, [.showError (readErr "cmd" true)], some (readErr "requestId" true))
  | st, .obj fs =>
      let key := jsToString (JsVal.getFieldL fs "cmd")
      let rid := JsVal.getFieldL fs "requestId"
      match commandTable key with
      | some c =>
          (match runHandler c env st (JsVal.getFieldL fs "payload") with
           | (st1, effs, .ok r) =>
              (st1, effs ++ [.postEnvelope rid (.payload r)], none)
           | (st1, effs, .error e) =>
              (st1, effs ++ [.showError e, .postEnvelope rid (.err e)], none))
      | none =>
          match otherProps key with
          | some .getWebviewPanel =>
              (st, [.postEnvelope rid (.payload env.panelVal)], none)
          | some .dispose =>
              (disposeCtrl st, [.postEnvelope rid (.payload .undef)], none)
          | some .classCtor =>
              (st, [.showError ctorErr, .postEnvelope rid (.err ctorErr)], none)
          | some .selfDispatch =>
              (match postMessageParser env st (JsVal.getFieldL fs "payload") with
               | (st1, effs, none) =>
                  (st1, effs ++ [.postEnvelope rid (.payload .undef)], none)
               | (st1, effs, some e) =>
                  (st1, effs ++ [.showError e, .postEnvelope rid (.err e)], none))
          | some .hasOwnProp =>
              (st, [.postEnvelope rid (.payload
                (.bool (ownInstanceProp (jsToString (JsVal.getFieldL fs "payload")))))], none)
          | some .isProtoOf =>
              (st, [.postEnvelope rid (.payload (.bool false))], none)
          | some .propIsEnum =>
              (st, [.postEnvelope rid (.payload
                (.bool (ownInstanceProp (jsToString (JsVal.getFieldL fs "payload")))))], none)
          | some .toLocaleStringM =>
              (st, [.postEnvelope rid (.payload (.str "[object Object]"))], none)
          | some .toStringM =>
              (st, [.postEnvelope rid (.payload (.str "[object Object]"))], none)
          | some .valueOfM =>
              (st, [.postEnvelope rid (.payload controllerVal)], none)
          | some .defineGetter =>
              (st, [.showError getterErr, .postEnvelope rid (.err getterErr)], none)
          | some .defineSetter =>
              (st, [.showError setterErr, .postEnvelope rid (.err setterErr)], none)
          | some .lookupGetter =>
              (st, [.postEnvelope rid (.payload
                (if jsToString (JsVal.getFieldL fs "payload") = "__proto__"
                 then protoGetterFnVal else .undef))], none)
          | some .lookupSetter =>
              (st, [.postEnvelope rid (.payload
                (if jsToString (JsVal.getFieldL fs "payload") = "__proto__"
                 then protoSetterFnVal else .undef))], none)
          | none =>
              (st, [.showError (bindError key), .postEnvelope rid (.err (bindError key))], none)
  | st, m =>
      -- A primitive message: every field reads as `undefined`, the key
      -- coerces to "undefined", which is no property of the instance.
      (st, [.showError (bindError (jsToString (m.getFieldNN "cmd"))),
            .postEnvelope (m.getFieldNN "requestId")
              (.err (bindError (jsToString (m.getFieldNN "cmd"))))], none)
termination_by _ m => sizeOf m
decreasing_by
  have h1 := sizeOf_getFieldL_lt fs "payload"
  simp only [JsVal.obj.sizeOf_spec]
  omega

/-- The synthetic envelope the state notifier builds on a git
state-change event (lines 34-38), addressed to the current subscriber
slot. -/
def stateChangedMessage (st : CState) : JsVal :=
  .obj [("cmd", .str "sendState"), ("requestId", st.stateRequestId), ("payload", .obj [])]

/-- The git state-change subscription (lines 32-42): it feeds the
synthetic envelope through the ordinary dispatcher path. -/
def onStateChanged (env : Env) (st : CState) : CState × List Effect × Option JsVal :=
  postMessageParser env st (stateChangedMessage st)

/-- A canonical inbound message object. -/
def mkMsg (cmd : String) (rid : String) (payload : JsVal) : JsVal :=
  .obj [("cmd", .str cmd), ("requestId", .str rid), ("payload", payload)]

/-- Is this effect an outbound correlation envelope. -/
def isEnvelope : Effect → Bool
  | .postEnvelope _ _ => true
  | _ => false

/-- Is this effect an error envelope. -/
def isErrEnvelope : Effect → Bool
  | .postEnvelope _ (.err _) => true
  | _ => false

/-- Is this effect any message posted to the webview. -/
def isPost : Effect → Bool
  | .postEnvelope _ _ => true
  | .postDirect _ _ => true
  | _ => false

/-- Number of correlation envelopes in an effect trace. -/
def countEnvelopes (l : List Effect) : Nat := (l.filter isEnvelope).length

/-- Number of error envelopes in an effect trace. -/
def countErrEnvelopes (l : List Effect) : Nat := (l.filter isErrEnvelope).length

/-- Number of messages posted to the webview in an effect trace. -/
def countPosts (l : List Effect) : Nat := (l.filter isPost).length

/-- A concrete environment in which every collaborator call succeeds
with a simple value; used to exercise the dispatcher on concrete
inputs. -/
def okEnv : Env where
  logEntriesRes := fun _ => .ok (.obj [("count", .num 0)])
  branchesRes := .ok (.arr [])
  authorsRes := .ok (.arr [])
  commitRes := fun _ => .ok (.obj [("hash", .obj [("full", .str "abc")])])
  commitRefreshRes := fun _ => .ok (.obj [("hash", .obj [("full", .str "abc")])])
  originTypeRes := .ok (some .github)
  providers := [⟨fun t => t = GitOriginType.any, .ok (.arr [.str "generic"])⟩]
  gitRoot := .str "/repo"
  currentBranch := .str "main"
  createTagRes := fun _ _ => .ok .undef
  createBranchRes := fun _ _ => .ok .undef
  removeTagRes := fun _ => .ok .undef
  removeBranchRes := fun _ => .ok .undef
  removeRemoteBranchRes := fun _ => .ok .undef
  resetRes := fun _ _ => .ok .undef
  execCommandRes := .ok .undef
  panelVal := .str "panel"

/-- The environment `okEnv` with the origin type unresolved. -/
def noOriginEnv : Env :=
  { okEnv with originTypeRes := .ok none }

/-- A provider dedicated to the github origin type. -/
def githubProvider : AvatarProviderM :=
  ⟨fun t => t = GitOriginType.github, .ok (.arr [.str "gh"])⟩

/-- The generic provider supporting any origin. -/
def genericAnyProvider : AvatarProviderM :=
  ⟨fun t => t = GitOriginType.any, .ok (.arr [.str "generic"])⟩

/-- An environment whose origin type has a dedicated provider. -/
def githubEnv : Env :=
  { okEnv with providers := [githubProvider, genericAnyProvider],
               originTypeRes := .ok (some .github) }

/-- An environment whose origin type has no dedicated provider, so only
the generic provider matches. -/
def bitbucketEnv : Env :=
  { okEnv with providers := [githubProvider, genericAnyProvider],
               originTypeRes := .ok (some .bitbucket) }

/-!
General lemmas about the handlers and the dispatcher.
-/

/-- No handler posts a correlation envelope itself; the only envelope
of a dispatch is the one the dispatcher appends. -/
theorem countEnvelopes_runHandler (c : CommandName) (env : Env) (st : CState) (p : JsVal) :
    countEnvelopes (runHandler c env st p).2.1 = 0 := by
  cases c <;> cases p <;>
    simp only [runHandler, hGetLogEntries, hGetBranches, hGetAuthors, hGetCommit, hGetAvatars,
      hDoActionRef, hashFull, hDoAction, hDoSomethingWithCommit, hSelectCommittedFile,
      hRegisterState, hSendState] <;>
    (repeat' split) <;>
    simp [countEnvelopes, isEnvelope]

/-- Only `registerState` writes the controller state. -/
theorem runHandler_state_eq (c : CommandName) (env : Env) (st : CState) (p : JsVal)
    (hc : c ≠ .registerState) : (runHandler c env st p).1 = st := by
  cases c <;> try exact absurd rfl hc
  all_goals
    cases p <;>
      simp only [runHandler, hGetLogEntries, hGetBranches, hGetAuthors, hGetCommit, hGetAvatars,
        hDoActionRef, hashFull, hDoAction, hDoSomethingWithCommit, hSelectCommittedFile,
        hSendState] <;>
      (repeat' split) <;> rfl

/-- A failing handler leaves the controller state untouched
(`registerState` can only fail before its assignment runs). -/
theorem runHandler_fail_state_eq (c : CommandName) (env : Env) (st : CState) (p : JsVal)
    (st1 : CState) (effs : List Effect) (e : JsVal)
    (h : runHandler c env st p = (st1, effs, .error e)) : st1 = st := by
  cases c
  case registerState =>
    cases p <;> simp only [runHandler, hRegisterState, Prod.mk.injEq] at h <;>
      first
      | exact h.1.symm
      | simp at h
  all_goals
    have hs := congrArg Prod.fst h
    rw [runHandler_state_eq] at hs
    · exact hs.symm
    · decide

set_option maxHeartbeats 1000000 in
/-- Inversion: the only key bound to `registerState` in the command
table is the string "registerState". -/
theorem commandTable_registerState {key : String}
    (h : commandTable key = some CommandName.registerState) : key = "registerState" := by
  unfold commandTable at h
  repeat' split at h
  all_goals
    first
    | assumption
    | (injection h with h2; exact absurd h2 (by decide))
    | exact Option.noConfusion h

set_option maxHeartbeats 1000000 in
/-- Inversion: the only key hitting the dispatcher itself is the string
"postMessageParser". -/
theorem otherProps_selfDispatch {key : String}
    (h : otherProps key = some OtherProp.selfDispatch) : key = "postMessageParser" := by
  unfold otherProps at h
  cases ho : ownFnProps key with
  | some p =>
      simp only [ho] at h
      injection h with h2
      subst h2
      unfold ownFnProps at ho
      repeat' split at ho
      all_goals
        first
        | assumption
        | (injection ho with h3; exact absurd h3 (by decide))
        | exact Option.noConfusion ho
  | none =>
      simp only [ho] at h
      exfalso
      unfold protoFnProps at h
      repeat' split at h
      all_goals
        first
        | (injection h with h3; exact absurd h3 (by decide))
        | exact Option.noConfusion h

/-!
The claims.
-/

/-- C1: for every command name present in the command table, when its
handler completes successfully, dispatch emits exactly one outbound
envelope, whose `requestId` equals the inbound `requestId` and whose
payload is the handler's result value. -/
theorem dispatch_success_unique_envelope (env : Env) (st : CState)
    (fs : List (String × JsVal)) (c : CommandName) (st1 : CState) (effs : List Effect) (r : JsVal)
    (hc : commandTable (jsToString (JsVal.getFieldL fs "cmd")) = some c)
    (hrun : runHandler c env st (JsVal.getFieldL fs "payload") = (st1, effs, .ok r)) :
    postMessageParser env st (.obj fs)
      = (st1, effs ++ [.postEnvelope (JsVal.getFieldL fs "requestId") (.payload r)], none)
    ∧ countEnvelopes (effs ++ [.postEnvelope (JsVal.getFieldL fs "requestId") (.payload r)]) = 1 := by
  constructor
  · rw [postMessageParser.eq_def]
    simp only [hc, hrun]
  · have h0 : countEnvelopes effs = 0 := by
      have h1 := countEnvelopes_runHandler c env st (JsVal.getFieldL fs "payload")
      rw [hrun] at h1
      exact h1
    simp only [countEnvelopes, List.filter_append, List.length_append] at h0 ⊢
    simp [h0, isEnvelope]

/-- C1 witness: a successful `getBranches` dispatch in the concrete
environment. -/
theorem dispatch_success_unique_envelope_witness :
    postMessageParser okEnv initState (mkMsg "getBranches" "r1" (.obj []))
      = (initState, [.git .getBranches, .postEnvelope (.str "r1") (.payload (.arr []))], none)
    ∧ countEnvelopes [.git .getBranches, .postEnvelope (.str "r1") (.payload (.arr []))] = 1 := by
  exact dispatch_success_unique_envelope okEnv initState
    [("cmd", .str "getBranches"), ("requestId", .str "r1"), ("payload", .obj [])]
    CommandName.getBranches initState [.git .getBranches] (.arr []) (by rfl) (by rfl)

/-- C2 counterexample: the command name "getWebviewPanel" is not in the
command table, yet dispatching it does not produce an error envelope:
the dynamic property lookup finds the public accessor, invokes it, and
the dispatcher emits a success envelope carrying the webview panel. -/
theorem unknown_command_error_envelope_cex :
    commandTable "getWebviewPanel" = none
    ∧ postMessageParser okEnv initState (mkMsg "getWebviewPanel" "r1" (.obj []))
      = (initState, [.postEnvelope (.str "r1") (.payload (.str "panel"))], none)
    ∧ countErrEnvelopes [.postEnvelope (.str "r1") (.payload (.str "panel"))] = 0 := by
  refine ⟨by rfl, ?_, by rfl⟩
  rw [postMessageParser.eq_def]
  have h1 : commandTable (jsToString (JsVal.getFieldL
      [("cmd", JsVal.str "getWebviewPanel"), ("requestId", JsVal.str "r1"),
       ("payload", JsVal.obj [])] "cmd")) = none := by rfl
  have h2 : otherProps (jsToString (JsVal.getFieldL
      [("cmd", JsVal.str "getWebviewPanel"), ("requestId", JsVal.str "r1"),
       ("payload", JsVal.obj [])] "cmd")) = some OtherProp.getWebviewPanel := by rfl
  simp only [mkMsg, h1, h2]
  rfl

/-- C2 amended: for every inbound message object whose command name
neither is in the command table nor names another function-valued
property of the controller, own or inherited along its prototype chain
(`getWebviewPanel`, `dispose`, `constructor`, `postMessageParser`, and
the `Object.prototype` methods `hasOwnProperty`, `isPrototypeOf`,
`propertyIsEnumerable`, `toLocaleString`, `toString`, `valueOf` and
the legacy accessor utilities), dispatch emits exactly one error
envelope carrying the inbound `requestId`, and the failure does not
escape the dispatcher; a command name hitting one of those properties
is instead invoked like a handler (for example `getWebviewPanel` or
`toString` yields a success envelope). -/
theorem unknown_command_error_envelope (env : Env) (st : CState)
    (fs : List (String × JsVal))
    (hTable : commandTable (jsToString (JsVal.getFieldL fs "cmd")) = none)
    (hOther : otherProps (jsToString (JsVal.getFieldL fs "cmd")) = none) :
    postMessageParser env st (.obj fs)
      = (st, [.showError (bindError (jsToString (JsVal.getFieldL fs "cmd"))),
              .postEnvelope (JsVal.getFieldL fs "requestId")
                (.err (bindError (jsToString (JsVal.getFieldL fs "cmd"))))], none)
    ∧ countErrEnvelopes
        [.showError (bindError (jsToString (JsVal.getFieldL fs "cmd"))),
         .postEnvelope (JsVal.getFieldL fs "requestId")
           (.err (bindError (jsToString (JsVal.getFieldL fs "cmd"))))] = 1 := by
  constructor
  · rw [postMessageParser.eq_def]
    simp only [hTable, hOther]
  · rfl

/-- C2 amended witness: the unknown command name "nonsense". -/
theorem unknown_command_error_envelope_witness :
    postMessageParser okEnv initState (mkMsg "nonsense" "r1" (.obj []))
      = (initState, [.showError (readErr "bind" false),
                     .postEnvelope (.str "r1") (.err (readErr "bind" false))], none)
    ∧ countErrEnvelopes
        [Effect.showError (readErr "bind" false),
         Effect.postEnvelope (.str "r1") (.err (readErr "bind" false))] = 1 := by
  exact unknown_command_error_envelope okEnv initState
    [("cmd", .str "nonsense"), ("requestId", .str "r1"), ("payload", .obj [])] (by rfl) (by rfl)

/-- C3: when a handler fails with value `e`, the dispatcher passes `e`
to the application shell's error display and emits exactly one outbound
envelope carrying the inbound `requestId` and `e` as the error; the
controller state (in particular the subscriber slot) is unchanged, so
subsequent dispatches behave as if the failed one had not occurred. -/
theorem dispatch_failure_error_envelope (env : Env) (st : CState)
    (fs : List (String × JsVal)) (c : CommandName) (st1 : CState) (effs : List Effect) (e : JsVal)
    (hc : commandTable (jsToString (JsVal.getFieldL fs "cmd")) = some c)
    (hrun : runHandler c env st (JsVal.getFieldL fs "payload") = (st1, effs, .error e)) :
    postMessageParser env st (.obj fs)
      = (st, effs ++ [.showError e,
          .postEnvelope (JsVal.getFieldL fs "requestId") (.err e)], none)
    ∧ countEnvelopes (effs ++ [.showError e,
        .postEnvelope (JsVal.getFieldL fs "requestId") (.err e)]) = 1
    ∧ countErrEnvelopes (effs ++ [.showError e,
        .postEnvelope (JsVal.getFieldL fs "requestId") (.err e)]) = 1
    ∧ st1 = st := by
  have hst : st1 = st := runHandler_fail_state_eq c env st (JsVal.getFieldL fs "payload") st1 effs e hrun
  have h0 : countEnvelopes effs = 0 := by
    have h1 := countEnvelopes_runHandler c env st (JsVal.getFieldL fs "payload")
    rw [hrun] at h1
    exact h1
  have h0e : countErrEnvelopes effs = 0 := by
    simp only [countEnvelopes, countErrEnvelopes, List.length_eq_zero,
      List.filter_eq_nil_iff] at h0 ⊢
    intro a ha
    have := h0 a ha
    cases a <;> simp_all [isEnvelope, isErrEnvelope]
  refine ⟨?_, ?_, ?_, hst⟩
  · rw [postMessageParser.eq_def]
    simp only [hc, hrun, hst]
  · simp only [countEnvelopes, List.filter_append, List.length_append] at h0 ⊢
    simp [h0, isEnvelope]
  · simp only [countErrEnvelopes, List.filter_append, List.length_append] at h0e ⊢
    simp [h0e, isErrEnvelope]

/-- C3 witness: `getLogEntries` dispatched with a `null` payload fails
with the `TypeError` of reading `searchText`, which comes back as the
single error envelope, and the state is unchanged. -/
theorem dispatch_failure_error_envelope_witness :
    postMessageParser okEnv initState (mkMsg "getLogEntries" "r1" .nullv)
      = (initState, [.showError (readErr "searchText" true),
                     .postEnvelope (.str "r1") (.err (readErr "searchText" true))], none)
    ∧ countEnvelopes [Effect.showError (readErr "searchText" true),
        Effect.postEnvelope (.str "r1") (.err (readErr "searchText" true))] = 1
    ∧ countErrEnvelopes [Effect.showError (readErr "searchText" true),
        Effect.postEnvelope (.str "r1") (.err (readErr "searchText" true))] = 1
    ∧ initState = initState := by
  exact dispatch_failure_error_envelope okEnv initState
    [("cmd", .str "getLogEntries"), ("requestId", .str "r1"), ("payload", .nullv)]
    CommandName.getLogEntries initState [] (readErr "searchText" true) (by rfl) (by rfl)

/-- C4: the subscriber slot starts as the empty string; every git
state-change notification dispatches a synthetic `sendState` envelope
whose `requestId` is the current slot value (so after
`registerState({requestId: "A"})` it is "A"); dispatching
`registerState` overwrites the slot with the payload request id (so a
later registration with "B" makes subsequent notifications carry "B");
and no dispatch other than one naming `registerState` (directly, or
through the self-dispatching `postMessageParser` property) changes the
slot. -/
theorem state_notifier_correlation :
    initState.stateRequestId = .str ""
    ∧ (∀ (env : Env) (st : CState), onStateChanged env st
        = (st, [.postEnvelope st.stateRequestId (.payload (.obj []))], none))
    ∧ (∀ (env : Env) (st : CState) (rid v : JsVal),
        postMessageParser env st (.obj [("cmd", .str "registerState"), ("requestId", rid),
          ("payload", .obj [("requestId", v)])])
        = ({ st with stateRequestId := v }, [.postEnvelope rid (.payload .undef)], none))
    ∧ (∀ (env : Env) (st : CState) (fs : List (String × JsVal)),
        jsToString (JsVal.getFieldL fs "cmd") ≠ "registerState" →
        jsToString (JsVal.getFieldL fs "cmd") ≠ "postMessageParser" →
        ((postMessageParser env st (.obj fs)).1).stateRequestId = st.stateRequestId) := by
  refine ⟨rfl, ?_, ?_, ?_⟩
  · intro env st
    rw [onStateChanged, stateChangedMessage, postMessageParser.eq_def]
    have h1 : commandTable (jsToString (JsVal.getFieldL
        [("cmd", JsVal.str "sendState"), ("requestId", st.stateRequestId),
         ("payload", JsVal.obj [])] "cmd")) = some CommandName.sendState := by rfl
    simp only [h1]
    rfl
  · intro env st rid v
    rw [postMessageParser.eq_def]
    have h1 : commandTable (jsToString (JsVal.getFieldL
        [("cmd", JsVal.str "registerState"), ("requestId", rid),
         ("payload", JsVal.obj [("requestId", v)])] "cmd"))
        = some CommandName.registerState := by rfl
    simp only [h1]
    rfl
  · intro env st fs h1 h2
    rw [postMessageParser.eq_def]
    cases hct : commandTable (jsToString (JsVal.getFieldL fs "cmd")) with
    | some c =>
        have hcne : c ≠ .registerState := by
          intro hx
          rw [hx] at hct
          exact h1 (commandTable_registerState hct)
        rcases hr : runHandler c env st (JsVal.getFieldL fs "payload") with ⟨st1, effs, res⟩
        have hst : st1 = st := by
          have hq := runHandler_state_eq c env st (JsVal.getFieldL fs "payload") hcne
          rw [hr] at hq
          exact hq
        cases res with
        | ok r => simp only [hct, hr, hst]
        | error e => simp only [hct, hr, hst]
    | none =>
        cases hop : otherProps (jsToString (JsVal.getFieldL fs "cmd")) with
        | some op =>
            cases op with
            | getWebviewPanel => simp only [hct, hop]
            | dispose => simp only [hct, hop, disposeCtrl]
            | classCtor => simp only [hct, hop]
            | selfDispatch => exact absurd (otherProps_selfDispatch hop) h2
            | hasOwnProp => simp only [hct, hop]
            | isProtoOf => simp only [hct, hop]
            | propIsEnum => simp only [hct, hop]
            | toLocaleStringM => simp only [hct, hop]
            | toStringM => simp only [hct, hop]
            | valueOfM => simp only [hct, hop]
            | defineGetter => simp only [hct, hop]
            | defineSetter => simp only [hct, hop]
            | lookupGetter => simp only [hct, hop]
            | lookupSetter => simp only [hct, hop]
        | none => simp only [hct, hop]

/-- C4 witness: the notifier at slot "A", a registration overwriting
the slot to "B", and a slot-preserving `getBranches` dispatch. -/
theorem state_notifier_correlation_witness :
    initState.stateRequestId = .str ""
    ∧ onStateChanged okEnv { stateRequestId := .str "A", disposeCounts := [0, 0] }
      = ({ stateRequestId := .str "A", disposeCounts := [0, 0] },
         [.postEnvelope (.str "A") (.payload (.obj []))], none)
    ∧ postMessageParser okEnv { stateRequestId := .str "A", disposeCounts := [0, 0] }
        (.obj [("cmd", .str "registerState"), ("requestId", .str "r2"),
          ("payload", .obj [("requestId", .str "B")])])
      = ({ stateRequestId := .str "B", disposeCounts := [0, 0] },
         [.postEnvelope (.str "r2") (.payload .undef)], none)
    ∧ ((postMessageParser okEnv initState
          (.obj [("cmd", .str "getBranches"), ("requestId", .str "r3"),
            ("payload", .obj [])])).1).stateRequestId = initState.stateRequestId := by
  have h := state_notifier_correlation
  exact ⟨h.1,
    h.2.1 okEnv { stateRequestId := .str "A", disposeCounts := [0, 0] },
    h.2.2.1 okEnv { stateRequestId := .str "A", disposeCounts := [0, 0] } (.str "r2") (.str "B"),
    h.2.2.2 okEnv initState
      [("cmd", .str "getBranches"), ("requestId", .str "r3"), ("payload", .obj [])]
      (by decide) (by decide)⟩

/-- C5: `getLogEntries({})` queries the git service with
`startIndex = 0`, `stopIndex = 30` and an undefined search filter;
`getLogEntries({searchText: ""})` also yields the undefined filter; and
for every object payload the returned value is the query result merged
with the echoed pagination bounds. -/
theorem getLogEntries_defaults_and_merge :
    (∀ (env : Env) (st : CState) (entries : JsVal),
      env.logEntriesRes ⟨.int 0, .int 30, .undef, .undef, none, none, none⟩ = .ok entries →
      hGetLogEntries env st (.obj [])
        = (st, [.git (.getLogEntries ⟨.int 0, .int 30, .undef, .undef, none, none, none⟩)],
           .ok (mergeBounds entries (.int 0) (.int 30))))
    ∧ (∀ (env : Env) (st : CState) (entries : JsVal),
      env.logEntriesRes ⟨.int 0, .int 30, .undef, .undef, none, none, none⟩ = .ok entries →
      hGetLogEntries env st (.obj [("searchText", .str "")])
        = (st, [.git (.getLogEntries ⟨.int 0, .int 30, .undef, .undef, none, none, none⟩)],
           .ok (mergeBounds entries (.int 0) (.int 30))))
    ∧ (∀ (env : Env) (st : CState) (fs : List (String × JsVal)) (entries : JsVal),
      env.logEntriesRes (logEntriesArgs (.obj fs)) = .ok entries →
      hGetLogEntries env st (.obj fs)
        = (st, [.git (.getLogEntries (logEntriesArgs (.obj fs)))],
           .ok (mergeBounds entries
             (logEntriesArgs (.obj fs)).startIndex (logEntriesArgs (.obj fs)).stopIndex))) := by
  have general : ∀ (env : Env) (st : CState) (fs : List (String × JsVal)) (entries : JsVal),
      env.logEntriesRes (logEntriesArgs (.obj fs)) = .ok entries →
      hGetLogEntries env st (.obj fs)
        = (st, [.git (.getLogEntries (logEntriesArgs (.obj fs)))],
           .ok (mergeBounds entries
             (logEntriesArgs (.obj fs)).startIndex (logEntriesArgs (.obj fs)).stopIndex)) := by
    intro env st fs entries hres
    simp only [hGetLogEntries, hres]
  refine ⟨?_, ?_, general⟩
  · intro env st entries hres
    have hq : logEntriesArgs (.obj []) = ⟨.int 0, .int 30, .undef, .undef, none, none, none⟩ := by
      rfl
    have h := general env st [] entries (by rw [hq]; exact hres)
    rw [hq] at h
    exact h
  · intro env st entries hres
    have hq : logEntriesArgs (.obj [("searchText", .str "")])
        = ⟨.int 0, .int 30, .undef, .undef, none, none, none⟩ := by rfl
    have h := general env st [("searchText", .str "")] entries (by rw [hq]; exact hres)
    rw [hq] at h
    exact h

/-- C5 witness: the empty payload, the empty-string search text, and a
payload with explicit bounds, in the concrete environment. -/
theorem getLogEntries_defaults_and_merge_witness :
    hGetLogEntries okEnv initState (.obj [])
      = (initState, [.git (.getLogEntries ⟨.int 0, .int 30, .undef, .undef, none, none, none⟩)],
         .ok (.obj [("count", .num 0), ("startIndex", .num 0), ("stopIndex", .num 30)]))
    ∧ hGetLogEntries okEnv initState (.obj [("searchText", .str "")])
      = (initState, [.git (.getLogEntries ⟨.int 0, .int 30, .undef, .undef, none, none, none⟩)],
         .ok (.obj [("count", .num 0), ("startIndex", .num 0), ("stopIndex", .num 30)]))
    ∧ hGetLogEntries okEnv initState (.obj [("startIndex", .str "5"), ("stopIndex", .str "40")])
      = (initState, [.git (.getLogEntries ⟨.int 5, .int 40, .undef, .undef, none, none, none⟩)],
         .ok (.obj [("count", .num 0), ("startIndex", .num 5), ("stopIndex", .num 40)])) := by
  have h := getLogEntries_defaults_and_merge
  exact ⟨h.1 okEnv initState (.obj [("count", .num 0)]) (by rfl),
    h.2.1 okEnv initState (.obj [("count", .num 0)]) (by rfl),
    h.2.2 okEnv initState [("startIndex", .str "5"), ("stopIndex", .str "40")]
      (.obj [("count", .num 0)]) (by rfl)⟩

/-- C6 counterexample: dispatching `getLogEntries` with the malformed
numeric string "abc" as `startIndex` raises no parse error: `parseInt`
yields `NaN`, which is silently forwarded to the git service, and the
dispatch emits a success envelope, not an error envelope. -/
theorem malformed_numeric_no_parse_error_cex :
    postMessageParser okEnv initState
      (mkMsg "getLogEntries" "r1" (.obj [("startIndex", .str "abc")]))
      = (initState,
         [.git (.getLogEntries ⟨.nan, .int 30, .undef, .undef, none, none, none⟩),
          .postEnvelope (.str "r1")
            (.payload (.obj [("count", .num 0), ("startIndex", .nan), ("stopIndex", .num 30)]))],
         none)
    ∧ countErrEnvelopes
        [Effect.git (.getLogEntries ⟨.nan, .int 30, .undef, .undef, none, none, none⟩),
         Effect.postEnvelope (.str "r1")
           (.payload (.obj [("count", .num 0), ("startIndex", .nan), ("stopIndex", .num 30)]))]
      = 0 := by
  constructor
  · rw [postMessageParser.eq_def]
    have h1 : commandTable (jsToString (JsVal.getFieldL
        [("cmd", JsVal.str "getLogEntries"), ("requestId", JsVal.str "r1"),
         ("payload", JsVal.obj [("startIndex", JsVal.str "abc")])] "cmd"))
        = some CommandName.getLogEntries := by rfl
    simp only [mkMsg, h1]
    rfl
  · rfl

/-- C6 amended: a malformed (digit-free) numeric string in the
`startIndex` field parses to `NaN`, which the handler forwards to the
git service unchanged; no parse error is raised, and when the service
call succeeds the handler succeeds, echoing `NaN` back in the merged
result. -/
theorem malformed_numeric_nan_forwarded (env : Env) (st : CState) (s : String) (entries : JsVal)
    (hs : s ≠ "")
    (hnan : parseIntStr s true = .nan)
    (hres : env.logEntriesRes ⟨.nan, .int 30, .undef, .undef, none, none, none⟩ = .ok entries) :
    hGetLogEntries env st (.obj [("startIndex", .str s)])
      = (st, [.git (.getLogEntries ⟨.nan, .int 30, .undef, .undef, none, none, none⟩)],
         .ok (mergeBounds entries .nan (.int 30))) := by
  have hq : logEntriesArgs (.obj [("startIndex", .str s)])
      = ⟨.nan, .int 30, .undef, .undef, none, none, none⟩ := by
    have hfield : JsVal.getFieldNN (.obj [("startIndex", .str s)]) "startIndex" = .str s := rfl
    have e2 : JsVal.getFieldNN (.obj [("startIndex", .str s)]) "stopIndex" = .undef := rfl
    have e3 : JsVal.getFieldNN (.obj [("startIndex", .str s)]) "branchName" = .undef := rfl
    have e4 : JsVal.getFieldNN (.obj [("startIndex", .str s)]) "searchText" = .undef := rfl
    have e5 : JsVal.getFieldNN (.obj [("startIndex", .str s)]) "file" = .undef := rfl
    have e6 : JsVal.getFieldNN (.obj [("startIndex", .str s)]) "line" = .undef := rfl
    have e7 : JsVal.getFieldNN (.obj [("startIndex", .str s)]) "authorFilter" = .undef := rfl
    have htruthy : (JsVal.str s).truthy = true := by
      simp [JsVal.truthy, hs]
    unfold logEntriesArgs
    simp only [hfield, e2, e3, e4, e5, e6, e7, htruthy]
    simp [JsVal.truthy, parseIntJs, jsToString, hnan]
  simp only [hGetLogEntries]
  rw [hq, hres]

/-- C6 amended witness: the malformed string "abc" in the concrete
environment. -/
theorem malformed_numeric_nan_forwarded_witness :
    hGetLogEntries okEnv initState (.obj [("startIndex", .str "abc")])
      = (initState, [.git (.getLogEntries ⟨.nan, .int 30, .undef, .undef, none, none, none⟩)],
         .ok (.obj [("count", .num 0), ("startIndex", .nan), ("stopIndex", .num 30)])) := by
  exact malformed_numeric_nan_forwarded okEnv initState "abc" (.obj [("count", .num 0)])
    (by decide) (by rfl) (by rfl)

/-- C7 counterexample: calling `dispose` twice invokes `dispose` on
each of the two held subscriptions twice, not exactly once; the method
has no idempotence guard. -/
theorem dispose_twice_double_release_cex :
    (disposeCtrl (disposeCtrl initState)).disposeCounts = [2, 2]
    ∧ (disposeCtrl (disposeCtrl initState)).disposeCounts ≠ [1, 1] := by
  decide

/-- C7 amended: calling `dispose` never throws (it is a total map of
the controller state), but each disposal request invokes `dispose` once
more on every held subscription: after `n` requests each of the two
subscriptions has been disposed `n` times, so release-exactly-once is
delegated to the subscriptions' own idempotence rather than guaranteed
by the controller. -/
theorem dispose_releases_once_per_request (n : Nat) :
    (disposeCtrl^[n] initState).disposeCounts = [n, n] := by
  induction n with
  | zero => rfl
  | succ k ih =>
      rw [Function.iterate_succ_apply']
      simp [disposeCtrl, ih]

/-- C7 amended witness: two disposal requests dispose each subscription
twice. -/
theorem dispose_releases_once_per_request_witness :
    (disposeCtrl^[2] initState).disposeCounts = [2, 2] :=
  dispose_releases_once_per_request 2

/-- C8 counterexample: `doAction` applies `decodeURIComponent` to the
payload value before using it, so with value "%41" the tag is created
as "A", not "%41", and the appended ref descriptor is named "A": the
claim's `(v, h)` call and `{type: Tag, name: v}` descriptor do not
occur. -/
theorem doAction_newtag_encoded_value_cex :
    hDoAction okEnv initState (.obj [("name", .str "newtag"), ("value", .str "%41"),
        ("logEntry", .obj [("hash", .obj [("full", .str "abc")]), ("refs", .arr [])])])
      = (initState,
         [.git .getGitRoot, .git .getCurrentBranch, .git (.createTag "A" (.str "abc"))],
         .ok (.obj [("hash", .obj [("full", .str "abc")]),
                    ("refs", .arr [refVal .Tag "A"])]))
    ∧ Effect.git (.createTag "%41" (.str "abc"))
        ∉ [Effect.git .getGitRoot, Effect.git .getCurrentBranch,
           Effect.git (.createTag "A" (.str "abc"))]
    ∧ refVal .Tag "A" ≠ refVal .Tag "%41" := by
  refine ⟨by rfl, ?_, ?_⟩
  · intro hm
    simp only [List.mem_cons, List.not_mem_nil, or_false] at hm
    rcases hm with h | h | h <;> exact absurd (by injection h) (by simp)
  · intro h
    simp only [refVal, JsVal.obj.injEq, List.cons.injEq, Prod.mk.injEq] at h
    exact absurd h.2.1.2 (by simp [JsVal.str.injEq])

/-- C8 amended: `doAction` with name "newtag" (resp. "newbranch"),
value `v` and a log entry with hash `h` calls the git service's tag
(resp. branch) creation with `(decodeURIComponent(v), h)`, appends
exactly one ref descriptor `{type: Tag, name: decodeURIComponent(v)}`
(resp. `{type: Head, name: ...}`) to the passed-in log entry's refs
list without re-fetching from the git service, and returns that
mutated log entry. -/
theorem doAction_tag_branch_decoded :
    (∀ (env : Env) (st : CState) (v d : String) (h : JsVal) (rs : List JsVal) (tr : JsVal),
      decodeURIComponentJs (.str v) = .ok d →
      env.createTagRes d h = .ok tr →
      hDoAction env st (.obj [("name", .str "newtag"), ("value", .str v),
          ("logEntry", .obj [("hash", .obj [("full", h)]), ("refs", .arr rs)])])
        = (st, [.git .getGitRoot, .git .getCurrentBranch, .git (.createTag d h)],
           .ok (.obj [("hash", .obj [("full", h)]), ("refs", .arr (rs ++ [refVal .Tag d]))])))
    ∧ (∀ (env : Env) (st : CState) (v d : String) (h : JsVal) (rs : List JsVal) (br : JsVal),
      decodeURIComponentJs (.str v) = .ok d →
      env.createBranchRes d h = .ok br →
      hDoAction env st (.obj [("name", .str "newbranch"), ("value", .str v),
          ("logEntry", .obj [("hash", .obj [("full", h)]), ("refs", .arr rs)])])
        = (st, [.git .getGitRoot, .git .getCurrentBranch, .git (.createBranch d h)],
           .ok (.obj [("hash", .obj [("full", h)]), ("refs", .arr (rs ++ [refVal .Head d]))]))) := by
  constructor
  · intro env st v d h rs tr hd hct
    simp only [hDoAction]
    simp only [show JsVal.getFieldNN (.obj [("name", JsVal.str "newtag"), ("value", JsVal.str v),
        ("logEntry", JsVal.obj [("hash", JsVal.obj [("full", h)]), ("refs", JsVal.arr rs)])])
        "value" = .str v from rfl,
      hd,
      show JsVal.getFieldNN (.obj [("name", JsVal.str "newtag"), ("value", JsVal.str v),
        ("logEntry", JsVal.obj [("hash", JsVal.obj [("full", h)]), ("refs", JsVal.arr rs)])])
        "name" = .str "newtag" from rfl,
      show JsVal.getFieldNN (.obj [("name", JsVal.str "newtag"), ("value", JsVal.str v),
        ("logEntry", JsVal.obj [("hash", JsVal.obj [("full", h)]), ("refs", JsVal.arr rs)])])
        "logEntry" = .obj [("hash", JsVal.obj [("full", h)]), ("refs", JsVal.arr rs)] from rfl,
      show hashFull (.obj [("hash", JsVal.obj [("full", h)]), ("refs", JsVal.arr rs)])
        = .ok h from rfl]
    simp only [hct]
    simp only [show JsVal.getFieldNN
        (.obj [("hash", JsVal.obj [("full", h)]), ("refs", JsVal.arr rs)]) "refs"
        = .arr rs from rfl]
    rfl
  · intro env st v d h rs br hd hct
    simp only [hDoAction]
    simp only [show JsVal.getFieldNN (.obj [("name", JsVal.str "newbranch"), ("value", JsVal.str v),
        ("logEntry", JsVal.obj [("hash", JsVal.obj [("full", h)]), ("refs", JsVal.arr rs)])])
        "value" = .str v from rfl,
      hd,
      show JsVal.getFieldNN (.obj [("name", JsVal.str "newbranch"), ("value", JsVal.str v),
        ("logEntry", JsVal.obj [("hash", JsVal.obj [("full", h)]), ("refs", JsVal.arr rs)])])
        "name" = .str "newbranch" from rfl,
      show JsVal.getFieldNN (.obj [("name", JsVal.str "newbranch"), ("value", JsVal.str v),
        ("logEntry", JsVal.obj [("hash", JsVal.obj [("full", h)]), ("refs", JsVal.arr rs)])])
        "logEntry" = .obj [("hash", JsVal.obj [("full", h)]), ("refs", JsVal.arr rs)] from rfl,
      show hashFull (.obj [("hash", JsVal.obj [("full", h)]), ("refs", JsVal.arr rs)])
        = .ok h from rfl]
    simp only [hct]
    simp only [show JsVal.getFieldNN
        (.obj [("hash", JsVal.obj [("full", h)]), ("refs", JsVal.arr rs)]) "refs"
        = .arr rs from rfl]
    rfl

/-- C8 amended witness: a percent-encoded value "%41" decoding to "A",
for both the tag and the branch action. -/
theorem doAction_tag_branch_decoded_witness :
    hDoAction okEnv initState (.obj [("name", .str "newtag"), ("value", .str "%41"),
        ("logEntry", .obj [("hash", .obj [("full", .str "abc")]), ("refs", .arr [])])])
      = (initState,
         [.git .getGitRoot, .git .getCurrentBranch, .git (.createTag "A" (.str "abc"))],
         .ok (.obj [("hash", .obj [("full", .str "abc")]), ("refs", .arr [refVal .Tag "A"])]))
    ∧ hDoAction okEnv initState (.obj [("name", .str "newbranch"), ("value", .str "%41"),
        ("logEntry", .obj [("hash", .obj [("full", .str "abc")]), ("refs", .arr [])])])
      = (initState,
         [.git .getGitRoot, .git .getCurrentBranch, .git (.createBranch "A" (.str "abc"))],
         .ok (.obj [("hash", .obj [("full", .str "abc")]), ("refs", .arr [refVal .Head "A"])])) := by
  exact ⟨doAction_tag_branch_decoded.1 okEnv initState "%41" "A" (.str "abc") [] .undef
      (by rfl) (by rfl),
    doAction_tag_branch_decoded.2 okEnv initState "%41" "A" (.str "abc") [] .undef
      (by rfl) (by rfl)⟩

/-- C9: when `getAvatars` resolves an origin type, it returns the
avatar list of the first provider that declares support for that
origin type; when no provider supports it, it returns the avatar list
of the first provider supporting `GitOriginType.any`, which is assumed
to exist in the provider set. -/
theorem getAvatars_provider_selection :
    (∀ (env : Env) (st : CState) (p : JsVal) (t : GitOriginType)
        (pr : AvatarProviderM) (av : JsVal),
      env.originTypeRes = .ok (some t) →
      env.providers.find? (fun item => item.supported t) = some pr →
      pr.avatarsRes = .ok av →
      hGetAvatars env st p = (st, [.git .getOriginType], .ok av))
    ∧ (∀ (env : Env) (st : CState) (p : JsVal) (t : GitOriginType)
        (g : AvatarProviderM) (av : JsVal),
      env.originTypeRes = .ok (some t) →
      env.providers.find? (fun item => item.supported t) = none →
      env.providers.find? (fun item => item.supported .any) = some g →
      g.avatarsRes = .ok av →
      hGetAvatars env st p = (st, [.git .getOriginType], .ok av)) := by
  constructor
  · intro env st p t pr av ho hf hav
    simp only [hGetAvatars, ho, hf, hav]
  · intro env st p t g av ho hf hg hav
    simp only [hGetAvatars, ho, hf, hg, hav]

/-- C9 witness: with a github origin the dedicated provider wins; with
a bitbucket origin no dedicated provider exists and the
generic-any provider is selected. -/
theorem getAvatars_provider_selection_witness :
    hGetAvatars githubEnv initState (.obj [])
      = (initState, [.git .getOriginType], .ok (.arr [.str "gh"]))
    ∧ hGetAvatars bitbucketEnv initState (.obj [])
      = (initState, [.git .getOriginType], .ok (.arr [.str "generic"])) := by
  exact ⟨getAvatars_provider_selection.1 githubEnv initState (.obj []) .github
      githubProvider (.arr [.str "gh"]) (by rfl) (by rfl) (by rfl),
    getAvatars_provider_selection.2 bitbucketEnv initState (.obj []) .bitbucket
      genericAnyProvider (.arr [.str "generic"]) (by rfl) (by rfl) (by rfl) (by rfl)⟩

/-- C10: when `getAvatars` resolves no origin type, it pushes the
direct message `{cmd: getAvatarsResult, error: No origin type found}`
and returns normally with `undefined`, so the dispatcher additionally
emits a standard success envelope with payload `undefined` for the same
request: the webview receives two posted messages, and the dispatcher
error branch is never taken. -/
theorem getAvatars_no_origin_two_messages (env : Env) (st : CState)
    (fs : List (String × JsVal))
    (horigin : env.originTypeRes = .ok none)
    (hcmd : JsVal.getFieldL fs "cmd" = .str "getAvatars") :
    postMessageParser env st (.obj fs)
      = (st, [.git .getOriginType,
              .postDirect "getAvatarsResult" "No origin type found",
              .postEnvelope (JsVal.getFieldL fs "requestId") (.payload .undef)], none)
    ∧ countPosts [Effect.git .getOriginType,
        Effect.postDirect "getAvatarsResult" "No origin type found",
        Effect.postEnvelope (JsVal.getFieldL fs "requestId") (.payload .undef)] = 2
    ∧ countErrEnvelopes [Effect.git .getOriginType,
        Effect.postDirect "getAvatarsResult" "No origin type found",
        Effect.postEnvelope (JsVal.getFieldL fs "requestId") (.payload .undef)] = 0 := by
  refine ⟨?_, by rfl, by rfl⟩
  rw [postMessageParser.eq_def]
  have h1 : commandTable (jsToString (JsVal.getFieldL fs "cmd"))
      = some CommandName.getAvatars := by
    rw [hcmd]; rfl
  simp only [h1, runHandler, hGetAvatars, horigin]
  rfl

/-- C10 witness: the no-origin environment. -/
theorem getAvatars_no_origin_two_messages_witness :
    postMessageParser noOriginEnv initState (mkMsg "getAvatars" "r1" (.obj []))
      = (initState, [.git .getOriginType,
          .postDirect "getAvatarsResult" "No origin type found",
          .postEnvelope (.str "r1") (.payload .undef)], none)
    ∧ countPosts [Effect.git .getOriginType,
        Effect.postDirect "getAvatarsResult" "No origin type found",
        Effect.postEnvelope (.str "r1") (.payload .undef)] = 2
    ∧ countErrEnvelopes [Effect.git .getOriginType,
        Effect.postDirect "getAvatarsResult" "No origin type found",
        Effect.postEnvelope (.str "r1") (.payload .undef)] = 0 := by
  exact getAvatars_no_origin_two_messages noOriginEnv initState
    [("cmd", .str "getAvatars"), ("requestId", .str "r1"), ("payload", .obj [])]
    (by rfl) (by rfl)

end ApiCtrl
